import Mathlib

/-!
Verification of the dojo task-scoring subnet core.

The definitions below are a shallow embedding of the repository's Python
sources.  Each definition's doc comment names the source function it embeds.

Conventions of the embedding:
* Python `dict`s are association lists `List (String × α)` with first-match
  lookup (`dictGet`), insertion preserving the position of an existing key.
* Python floats that carry scores/ranks are modelled as `ℚ`.
* Python exceptions are modelled with `Except PyError`; an uncaught
  exception inside a database transaction rolls the transaction back.
* `datetime` values are modelled as integers (seconds since an epoch).
-/

namespace Dojo

/-- Lookup in a Python dict modelled as an association list: the value of the
first (and in a well-formed dict, only) pair whose key matches. -/
def dictGet {α : Type} : List (String × α) → String → Option α
  | [], _ => none
  | kv :: rest, k => if kv.1 = k then some kv.2 else dictGet rest k

/-- Python update `d[k] += v` on a `defaultdict(float)`: add `v` to the existing
entry for `k` (keeping its position), or append `(k, v)` if `k` is absent
(the default value being `0`). -/
def ddAdd : List (String × ℚ) → String → ℚ → List (String × ℚ)
  | [], k, v => [(k, v)]
  | kv :: rest, k, v => if kv.1 = k then (kv.1, kv.2 + v) :: rest else kv :: ddAdd rest k v

/-- Python update `d[k] = v` on a dict: overwrite the existing entry for `k`
(keeping its position), or append `(k, v)`. -/
def dictSet {α : Type} : List (String × α) → String → α → List (String × α)
  | [], k, v => [(k, v)]
  | kv :: rest, k, v => if kv.1 = k then (k, v) :: rest else kv :: dictSet rest k v

/-- Python truthiness of an optional string: `None` and `""` are falsy. -/
def pyFalsyStr : Option String → Bool
  | none => true
  | some s => s.isEmpty

/-- The enum `database.prisma.enums.CriteriaTypeEnum` (used by `src/database/mappers.py`
and `src/commons/dojo_task_tracker.py`). -/
inductive CriteriaTypeEnum
  | RANKING_CRITERIA
  | SCORE
  | MULTI_SELECT
  | MULTI_SCORE
deriving DecidableEq

/-- The closed union of criteria classes from `dojo.protocol`
(`ScoreCriteria`, `MultiSelectCriteria`, `RankingCriteria`,
`MultiScoreCriteria`), as dispatched on by `isinstance` in
`src/database/mappers.py`.  The class definitions themselves are not under
`src/`; their fields are those accessed by the mappers. -/
inductive CriteriaType
  | ScoreCriteria (min max : ℚ)
  | MultiSelectCriteria (options : List String)
  | RankingCriteria (options : List String)
  | MultiScoreCriteria (options : List String) (min max : ℚ)
deriving DecidableEq

/-- The class `dojo.protocol.CompletionResponse` (fields as accessed by
`src/database/mappers.py`): one candidate completion on the wire.
`completion` is opaque JSON, kept as a string. -/
structure CompletionResponse where
  completion_id : String
  model : String
  completion : String
  criteria_types : List CriteriaType
  rank_id : Option ℤ
  score : Option ℚ
deriving DecidableEq

/-- The class `dojo.protocol.TaskSynapseObject` (fields as accessed by
`src/database/mappers.py` and `src/commons/orm.py`). -/
structure TaskSynapseObject where
  task_id : String
  previous_task_id : Option String
  prompt : String
  task_type : String
  expire_at : String
  completion_responses : List CompletionResponse
  ground_truth : List (String × ℤ)
  miner_hotkey : Option String
  miner_coldkey : Option String
  dojo_task_id : Option String
deriving DecidableEq

/-- Python exceptions relevant to the embedded code.  `commons/exceptions.py`
under `src/` defines its exception classes as direct subclasses of
`Exception`; `InvalidMinerResponse` (imported by `src/commons/orm.py` but
whose definition is not under `src/`) is modelled from the spec's error
taxonomy as its own kind, distinct from the builtin `ValueError`. -/
inductive PyError
  | valueError (msg : String)
  | invalidMinerResponse (msg : String)
  | invalidValidatorRequest (msg : String)
deriving DecidableEq

/-- Configuration dict produced by `_get_criteria_config` in
`src/database/mappers.py`: optional `min`/`max`/`options` keys. -/
structure CriteriaConfig where
  min : Option ℚ
  max : Option ℚ
  options : Option (List String)
deriving DecidableEq

/-- The row input `database.prisma.types.CriterionCreateInput` as built in
`src/database/mappers.py`. -/
structure CriterionCreateInput where
  criteria_type : CriteriaTypeEnum
  config : CriteriaConfig
deriving DecidableEq

/-- The row input `database.prisma.types.CompletionCreateInput` as built in
`src/database/mappers.py`. -/
structure CompletionCreateInput where
  validator_task_id : String
  model : String
  completion : String
  criterion : List CriterionCreateInput
deriving DecidableEq

/-- The row input `database.prisma.types.GroundTruthCreateInput` as built in
`src/database/mappers.py`. -/
structure GroundTruthCreateInput where
  validator_task_id : String
  obfuscated_model_id : String
  real_model_id : String
  rank_id : ℤ
deriving DecidableEq

/-- The row input `database.prisma.types.ValidatorTaskCreateInput` as built in
`src/database/mappers.py`. -/
structure ValidatorTaskCreateInput where
  id : String
  previous_task_id : Option String
  prompt : String
  task_type : String
  expire_at : String
  is_processed : Bool
  completions : List CompletionCreateInput
  ground_truth : List GroundTruthCreateInput
deriving DecidableEq

/-- The row input `database.prisma.types.MinerResponseCreateInput` as built in
`src/database/mappers.py`. -/
structure MinerResponseCreateInput where
  validator_task_id : String
  dojo_task_id : String
  hotkey : String
  coldkey : String
deriving DecidableEq

/-- Embedding of `_map_criteria_type_to_enum` from `src/database/mappers.py`: only
`ScoreCriteria` and `MultiSelectCriteria` are handled; anything else raises
`ValueError`. -/
def _map_criteria_type_to_enum : CriteriaType → Except PyError CriteriaTypeEnum
  | .ScoreCriteria _ _ => .ok .SCORE
  | .MultiSelectCriteria _ => .ok .MULTI_SELECT
  | _ => .error (.valueError ("Unknown criteria type"))

/-- Embedding of `_get_criteria_config` from `src/database/mappers.py`. -/
def _get_criteria_config : CriteriaType → CriteriaConfig
  | .ScoreCriteria mn mx => { min := some mn, max := some mx, options := none }
  | .MultiSelectCriteria opts => { min := none, max := none, options := some opts }
  | _ => { min := none, max := none, options := none }

/-- Embedding of `map_task_synapse_object_to_validator_task` from
`src/database/mappers.py`.  Ground-truth rows set both
`obfuscated_model_id` and `real_model_id` to the synapse's model id. -/
def map_task_synapse_object_to_validator_task (synapse : TaskSynapseObject) :
    Except PyError ValidatorTaskCreateInput := do
  let completions ← synapse.completion_responses.mapM (fun resp => do
    let criteria ←
      if resp.criteria_types ≠ [] then
        resp.criteria_types.mapM (fun criterion => do
          let ty ← _map_criteria_type_to_enum criterion
          pure (CriterionCreateInput.mk ty (_get_criteria_config criterion)))
      else
        pure []
    pure (CompletionCreateInput.mk synapse.task_id resp.model resp.completion criteria))
  let ground_truths :=
    if synapse.ground_truth ≠ [] then
      synapse.ground_truth.map (fun kv =>
        GroundTruthCreateInput.mk synapse.task_id kv.1 kv.1 kv.2)
    else []
  pure
    { id := synapse.task_id
      previous_task_id := synapse.previous_task_id
      prompt := synapse.prompt
      task_type := synapse.task_type
      expire_at := synapse.expire_at
      is_processed := false
      completions := completions
      ground_truth := ground_truths }

/-- Embedding of `map_task_synapse_object_to_miner_response` from
`src/database/mappers.py`.  Note that the source raises the builtin
`ValueError` (not `InvalidMinerResponse`) when the hotkey/coldkey or the
dojo task id is missing. -/
def map_task_synapse_object_to_miner_response (synapse : TaskSynapseObject)
    (validator_task_id : String) : Except PyError MinerResponseCreateInput :=
  if pyFalsyStr synapse.miner_hotkey || pyFalsyStr synapse.miner_coldkey then
    .error (.valueError ("Miner hotkey and coldkey are required"))
  else if pyFalsyStr synapse.dojo_task_id then
    .error (.valueError ("Dojo task ID is required"))
  else
    .ok
      { validator_task_id := validator_task_id
        dojo_task_id := synapse.dojo_task_id.getD ("")
        hotkey := synapse.miner_hotkey.getD ("")
        coldkey := synapse.miner_coldkey.getD ("") }

/-- The `for miner_response in miner_responses` loop of `ORM.save_task`
(`src/commons/orm.py`): each response is mapped; only an
`InvalidMinerResponse` exception is caught (and the response skipped); any
other exception propagates and aborts the transaction. -/
def save_task_loop (validator_task_id : String) :
    List TaskSynapseObject → List MinerResponseCreateInput →
    Except PyError (List MinerResponseCreateInput)
  | [], acc => .ok acc.reverse
  | mr :: rest, acc =>
    match map_task_synapse_object_to_miner_response mr validator_task_id with
    | .ok d => save_task_loop validator_task_id rest (d :: acc)
    | .error (.invalidMinerResponse _) => save_task_loop validator_task_id rest acc
    | .error e => .error e

/-- Embedding of `ORM.save_task` from `src/commons/orm.py`: maps the validator task, then
bulk-collects the miner responses that map successfully; the result is the
data committed by the transaction (`none` when any uncaught exception rolls
the transaction back and the outer handler returns `None`).  The source's
`ground_truth` argument is never read by the body and is kept here for
signature fidelity. -/
def ORM.save_task (validator_task : TaskSynapseObject)
    (miner_responses : List TaskSynapseObject) (ground_truth : List (String × ℤ)) :
    Option (ValidatorTaskCreateInput × List MinerResponseCreateInput) :=
  let _ := ground_truth
  match map_task_synapse_object_to_validator_task validator_task with
  | .error _ => none
  | .ok created_task =>
    match save_task_loop created_task.id miner_responses [] with
    | .ok valid_miner_data => some (created_task, valid_miner_data)
    | .error _ => none

/-- The class `dojo.protocol.Result` (shape given in the spec's data model, §3): one
criteria-typed map from model id to score-or-rank, as read by
`src/commons/dojo_task_tracker.py`. -/
structure Result where
  type : CriteriaTypeEnum
  value : List (String × ℚ)
deriving DecidableEq

/-- The class `dojo.protocol.TaskResult` (shape given in the spec's data model, §3),
as read by `src/commons/dojo_task_tracker.py`. -/
structure TaskResult where
  id : String
  status : String
  worker_id : String
  task_id : String
  result_data : List Result
deriving DecidableEq

/-- The lookup `obfuscated_to_real_model_id.get(model_id, model_id)` as used in
`DojoTaskTracker._calculate_averages`: de-obfuscate a model id, falling back
to the id itself when it is absent from the map. -/
def deobf (obfuscated_to_real_model_id : List (String × String)) (model_id : String) : String :=
  (dictGet obfuscated_to_real_model_id model_id).getD model_id

/-- Mutable loop state of `DojoTaskTracker._calculate_averages`
(`src/commons/dojo_task_tracker.py`): the two `defaultdict(float)`
accumulators and the two worker-entry counters. -/
structure AvgState where
  model_id_to_avg_rank : List (String × ℚ)
  model_id_to_avg_score : List (String × ℚ)
  num_ranks_by_workers : ℕ
  num_scores_by_workers : ℕ
deriving DecidableEq

/-- The inner `for model_id, ... in value.items()` loops of
`_calculate_averages`: accumulate every entry of one result-data `value`
dict into the accumulator, keyed by the de-obfuscated model id. -/
def addAll (d : List (String × ℚ)) (M : List (String × String))
    (value : List (String × ℚ)) : List (String × ℚ) :=
  value.foldl (fun d kv => ddAdd d (deobf M kv.1) kv.2) d

/-- The body of the `for result_data in result.result_data` loop of
`_calculate_averages`: a `RANKING_CRITERIA` entry feeds the rank
accumulator and counter, a `MULTI_SCORE` entry the score ones, anything
else is ignored. -/
def stepResultData (M : List (String × String)) (st : AvgState) (rd : Result) : AvgState :=
  match rd.type with
  | .RANKING_CRITERIA =>
    { st with
      model_id_to_avg_rank := addAll st.model_id_to_avg_rank M rd.value
      num_ranks_by_workers := st.num_ranks_by_workers + 1 }
  | .MULTI_SCORE =>
    { st with
      model_id_to_avg_score := addAll st.model_id_to_avg_score M rd.value
      num_scores_by_workers := st.num_scores_by_workers + 1 }
  | _ => st

/-- The accumulation phase of `DojoTaskTracker._calculate_averages`
(`src/commons/dojo_task_tracker.py`): both nested `for` loops, before the
final averaging divisions. -/
def DojoTaskTracker.accumulate (task_results : List TaskResult)
    (obfuscated_to_real_model_id : List (String × String)) : AvgState :=
  task_results.foldl
    (fun st result => result.result_data.foldl (stepResultData obfuscated_to_real_model_id) st)
    ⟨[], [], 0, 0⟩

/-- Embedding of `DojoTaskTracker._calculate_averages` from
`src/commons/dojo_task_tracker.py`: accumulate, then divide every
accumulated sum by the corresponding per-criteria-type worker-entry count.
Returns `(model_id_to_avg_rank, model_id_to_avg_score)`. -/
def DojoTaskTracker._calculate_averages (task_results : List TaskResult)
    (obfuscated_to_real_model_id : List (String × String)) :
    List (String × ℚ) × List (String × ℚ) :=
  let st := DojoTaskTracker.accumulate task_results obfuscated_to_real_model_id
  (st.model_id_to_avg_rank.map (fun kv => (kv.1, kv.2 / (st.num_ranks_by_workers : ℚ))),
   st.model_id_to_avg_score.map (fun kv => (kv.1, kv.2 / (st.num_scores_by_workers : ℚ))))

/-- Specification-side quantity: the `(model_id, value)` entries of all
result-data dicts of the given criteria type, in traversal order. -/
def entriesOfType (ty : CriteriaTypeEnum) (task_results : List TaskResult) :
    List (String × ℚ) :=
  task_results.flatMap (fun r =>
    (r.result_data.filter (fun rd => rd.type = ty)).flatMap (fun rd => rd.value))

/-- Specification-side quantity: the number of worker result-data entries of
the given criteria type. -/
def countOfType (ty : CriteriaTypeEnum) (task_results : List TaskResult) : ℕ :=
  (task_results.map (fun r => (r.result_data.filter (fun rd => rd.type = ty)).length)).sum

/-- Specification-side quantity: the sum of reported values whose
de-obfuscated model id is `m`, over the given entries. -/
def sumFor (M : List (String × String)) (entries : List (String × ℚ)) (m : String) : ℚ :=
  ((entries.filter (fun kv => deobf M kv.1 = m)).map Prod.snd).sum

/-- The class `bt.TerminalInfo` as accessed by the handlers: only the `hotkey` field
is read. -/
structure TerminalInfo where
  hotkey : Option String
deriving DecidableEq

/-- The class `dojo.protocol.FeedbackRequest` (fields per the spec's external
interface, §6, as accessed by `src/simulator/miner.py` and
`src/commons/data_manager.py`). -/
structure FeedbackRequest where
  request_id : String
  prompt : String
  task_type : String
  criteria_types : List CriteriaType
  completion_responses : List CompletionResponse
  dojo_task_id : Option String
  expire_at : String
  ground_truth : List (String × ℤ)
  dendrite : Option TerminalInfo
  axon : Option TerminalInfo
deriving DecidableEq

/-- The mutable state of `MinerSim` touched by `forward_feedback_request`
(`src/simulator/miner.py`): the Redis store (key to stored synapse) and the
in-memory `hotkey_to_request` table. -/
structure MinerSimState where
  redis : List (String × FeedbackRequest)
  hotkey_to_request : List (String × FeedbackRequest)
deriving DecidableEq

/-- Python truthiness of `synapse.dendrite and synapse.dendrite.hotkey`:
falsy when the dendrite is missing or its hotkey is `None`/empty. -/
def dendriteHotkeyFalsy (s : FeedbackRequest) : Bool :=
  match s.dendrite with
  | none => true
  | some d => pyFalsyStr d.hotkey

/-- Embedding of `MinerSim.forward_feedback_request` from `src/simulator/miner.py`.
Returns the synapse handed back to the validator together with the updated
miner state.  Mirrors the source's mutation order: the Redis copy is taken
before `dojo_task_id` is assigned (so it keeps the original `dojo_task_id`
and the full ground truth but an emptied `completion_responses`), and the
object stored in `hotkey_to_request` is the very object later returned, so
it reflects both the `dojo_task_id` assignment and the ground-truth
scrubbing.  On a failed validation check the input synapse is returned
unmodified. -/
def MinerSim.forward_feedback_request (st : MinerSimState) (synapse : FeedbackRequest) :
    FeedbackRequest × MinerSimState :=
  if dendriteHotkeyFalsy synapse then
    (synapse, st)
  else if synapse.completion_responses = [] then
    (synapse, st)
  else
    let new_synapse := { synapse with completion_responses := [] }
    let returned := { synapse with
      dojo_task_id := some synapse.request_id
      ground_truth := [] }
    let hk := (synapse.dendrite.map (fun d => d.hotkey.getD (""))).getD ("")
    (returned,
      { redis := dictSet st.redis ("feedback:" ++ synapse.request_id) new_synapse
        hotkey_to_request := dictSet st.hotkey_to_request hk returned })

/-- Python `int()` truncation toward zero of a rational. -/
def pyInt (q : ℚ) : ℤ := q.num.tdiv q.den

/-- The score formula of `MinerSim._generate_scores`
(`src/simulator/miner.py`) for one ground-truth value `v` and one draw `u`
of `random.uniform(-0.5, 0.5)`:
`score = int(((int(v + u)) / (10 - 1)) * (100 - 1) + 1)` clamped into
`[1, 100]` by `max(1, min(100, score))`. -/
def MinerSim.genScore (v : ℤ) (u : ℚ) : ℤ :=
  let score := pyInt (((pyInt ((v : ℚ) + u) : ℚ) / (10 - 1)) * (100 - 1) + 1)
  max 1 (min 100 score)

/-- Embedding of `MinerSim._generate_scores` from `src/simulator/miner.py`: one score per
ground-truth entry, consuming one uniform draw per entry (the draws are
abstracted as the stream `u`). -/
def MinerSim._generate_scores (u : ℕ → ℚ) : List (String × ℤ) → List (String × ℤ)
  | [] => []
  | kv :: rest => (kv.1, MinerSim.genScore kv.2 (u 0)) ::
      MinerSim._generate_scores (fun n => u (n + 1)) rest

/-- A stored `ValidatorTask` row, with the fields that
`ORM.get_expired_tasks` queries (`src/commons/orm.py`).  Timestamps are
seconds since an epoch. -/
structure ValidatorTask where
  id : String
  created_at : ℤ
  expire_at : ℤ
  is_processed : Bool
deriving DecidableEq

/-- The iterator control-flow exceptions of `ORM.get_expired_tasks`
(`src/commons/orm.py`); the classes themselves are imported from
`commons.exceptions`. -/
inductive OrmError
  | expiredFromMoreThanExpireTo
  | noNewExpiredTasksYet
deriving DecidableEq

/-- The `vali_where_query_unprocessed` filter of `ORM.get_expired_tasks`:
`expire_at` strictly between the bounds (`gt`/`lt`) and
`is_processed = False`. -/
def expiredWhere (expire_from expire_to : ℤ) (t : ValidatorTask) : Bool :=
  decide (expire_from < t.expire_at) && decide (t.expire_at < expire_to) &&
    (t.is_processed = false)

/-- Insert a task into a list that is sorted by `created_at` descending,
keeping it sorted. -/
def insertDesc (t : ValidatorTask) : List ValidatorTask → List ValidatorTask
  | [] => [t]
  | u :: rest =>
    if u.created_at ≤ t.created_at then t :: u :: rest else u :: insertDesc t rest

/-- The ordering `ORDER BY created_at DESC` as used by the `find_many` calls of
`ORM.get_expired_tasks`, realized as insertion sort (the SQL ordering is
any permutation that is sorted by `created_at` descending). -/
def sortByCreatedAtDesc : List ValidatorTask → List ValidatorTask
  | [] => []
  | t :: rest => insertDesc t (sortByCreatedAtDesc rest)

/-- One paged `find_many` call of `ORM.get_expired_tasks`: filter, order by
`created_at DESC`, `skip`, `take`. -/
def findManyExpired (db : List ValidatorTask) (expire_from expire_to : ℤ)
    (skip take : ℕ) : List ValidatorTask :=
  (((sortByCreatedAtDesc (db.filter (expiredWhere expire_from expire_to)))).drop skip).take take

/-- Python `range(a, b, s)` for a positive step `s`. -/
def pyRange (a b s : ℕ) : List ℕ :=
  (List.range ((b - a + s - 1) / s)).map (fun i => a + i * s)

/-- Embedding of `ORM.get_expired_tasks` from `src/commons/orm.py`, over a snapshot `db`
of the `ValidatorTask` table.  `now` is the current UTC time and
`task_deadline` the `TASK_DEADLINE` constant, both in seconds.  Defaults:
`expire_to = now - TASK_DEADLINE`, `expire_from = expire_to - 6 hours`.
Raises `ExpiredFromMoreThanExpireTo` when `expire_from > expire_to` and
`NoNewExpiredTasksYet` when the unprocessed count is zero; otherwise
returns the batches the async generator yields, each paired with its
`has_more` flag. -/
def ORM.get_expired_tasks (db : List ValidatorTask) (now task_deadline : ℤ)
    (batch_size : ℕ) (expire_from expire_to : Option ℤ) :
    Except OrmError (List (List ValidatorTask × Bool)) :=
  let ef := expire_from.getD (now - task_deadline - 6 * 3600)
  let et := expire_to.getD (now - task_deadline)
  if et < ef then
    .error .expiredFromMoreThanExpireTo
  else
    let task_count_unprocessed := (db.filter (expiredWhere ef et)).length
    if task_count_unprocessed = 0 then
      .error .noNewExpiredTasksYet
    else
      let first_batch := findManyExpired db ef et 0 batch_size
      .ok ((first_batch, decide (batch_size < task_count_unprocessed)) ::
        (pyRange batch_size task_count_unprocessed batch_size).map (fun skip =>
          (findManyExpired db ef et skip batch_size,
           decide (skip + batch_size < task_count_unprocessed))))

/-- Embedding of `ORM.get_real_model_ids` from `src/commons/orm.py`, over a snapshot of
the `GroundTruth` table: the dict comprehension
`{gt.obfuscated_model_id: gt.real_model_id}` over the rows of the given
validator task. -/
def ORM.get_real_model_ids (ground_truth_rows : List GroundTruthCreateInput)
    (validator_task_id : String) : List (String × String) :=
  (ground_truth_rows.filter (fun gt => gt.validator_task_id = validator_task_id)).foldl
    (fun d gt => dictSet d gt.obfuscated_model_id gt.real_model_id) []

/-- A stored `Miner_Response_Model` row of the legacy schema, as read and
written by `DataManager.overwrite_miner_responses_by_request_id`
(`src/commons/data_manager.py`).  Generated primary keys are modelled as
naturals drawn from a counter. -/
structure MinerResponseRow where
  id : ℕ
  request_id : String
  hotkey : String
  dojo_task_id : String
deriving DecidableEq

/-- A stored `Completion_Response_Model` row as created by
`map_completion_response_to_model` (`src/database/mappers.py`);
`feedback_request_id` is the id of the owning miner-response row. -/
structure CompletionResponseRow where
  completion_id : String
  model : String
  completion : String
  rank_id : Option ℤ
  score : Option ℚ
  feedback_request_id : ℕ
deriving DecidableEq

/-- The slice of the legacy store touched by
`DataManager.overwrite_miner_responses_by_request_id`: the two tables plus
the id generator. -/
structure LegacyDB where
  miner_responses : List MinerResponseRow
  completion_rows : List CompletionResponseRow
  next_id : ℕ
deriving DecidableEq

/-- Embedding of `map_completion_response_to_model` from `src/database/mappers.py`. -/
def map_completion_response_to_model (response : CompletionResponse)
    (feedback_request_id : ℕ) : CompletionResponseRow :=
  { completion_id := response.completion_id
    model := response.model
    completion := response.completion
    rank_id := response.rank_id
    score := response.score
    feedback_request_id := feedback_request_id }

/-- Modelled from the spec: `map_miner_response_to_model`, referenced by
`DataManager.overwrite_miner_responses_by_request_id` in
`src/commons/data_manager.py` but not defined under `src/`.  Per §4.3 of
the spec, updating miner completions fails with `InvalidMinerResponse` if
a response lacks a hotkey; the produced row carries the request id, the
miner's hotkey and its platform task id.  `id` is the generated primary
key. -/
def map_miner_response_to_model (request : FeedbackRequest) (request_id : String)
    (id : ℕ) : Except PyError MinerResponseRow :=
  match request.axon with
  | none => .error (.invalidMinerResponse ("Miner Hotkey is required"))
  | some a =>
    if pyFalsyStr a.hotkey then
      .error (.invalidMinerResponse ("Miner Hotkey is required"))
    else
      .ok
        { id := id
          request_id := request_id
          hotkey := a.hotkey.getD ("")
          dojo_task_id := request.dojo_task_id.getD ("") }

/-- The `for miner_response in miner_responses` creation loop of
`DataManager.overwrite_miner_responses_by_request_id`: map each response to
a fresh miner-response row, then create one completion row per completion
response under it.  Any exception propagates (the source has no per-item
handler here). -/
def create_miner_rows (request_id : String) :
    LegacyDB → List FeedbackRequest → Except PyError LegacyDB
  | db, [] => .ok db
  | db, r :: rest =>
    match map_miner_response_to_model r request_id db.next_id with
    | .error e => .error e
    | .ok row =>
      create_miner_rows request_id
        { miner_responses := db.miner_responses ++ [row]
          completion_rows := db.completion_rows ++
            r.completion_responses.map (fun c => map_completion_response_to_model c row.id)
          next_id := db.next_id + 1 }
        rest

/-- Embedding of `DataManager.overwrite_miner_responses_by_request_id` from
`src/commons/data_manager.py`: in one transaction, delete the completion
rows whose owning miner response has the given `request_id`, delete the
miner-response rows with that `request_id`, then recreate both from the
supplied responses.  An exception rolls the whole transaction back and the
method returns `False` with the store unchanged. -/
def DataManager.overwrite_miner_responses_by_request_id (db : LegacyDB)
    (request_id : String) (miner_responses : List FeedbackRequest) : Bool × LegacyDB :=
  let after_delete : LegacyDB :=
    { miner_responses := db.miner_responses.filter
        (fun m => !(decide (m.request_id = request_id)))
      completion_rows := db.completion_rows.filter
        (fun c => !(db.miner_responses.any (fun m =>
          decide (m.id = c.feedback_request_id) && decide (m.request_id = request_id))))
      next_id := db.next_id }
  match create_miner_rows request_id after_delete miner_responses with
  | .ok db' => (true, db')
  | .error _ => (false, db)

/-- Specification-side view of one stored completion under a request: the
owning miner's hotkey together with the data columns of the completion
row. -/
structure StoredCompletion where
  hotkey : String
  completion_id : String
  model : String
  completion : String
  rank_id : Option ℤ
  score : Option ℚ
deriving DecidableEq

/-- Specification-side quantity: the stored completion set of a request, in
table order — for every miner-response row of the request, the data of the
completion rows owned by it. -/
def storedCompletions (db : LegacyDB) (request_id : String) : List StoredCompletion :=
  (db.miner_responses.filter (fun m => decide (m.request_id = request_id))).flatMap
    (fun m =>
      (db.completion_rows.filter (fun c => decide (c.feedback_request_id = m.id))).map
        (fun c => ⟨m.hotkey, c.completion_id, c.model, c.completion, c.rank_id, c.score⟩))

/-- The miner hotkey string of a wire response (empty when absent). -/
def hotkeyStr (r : FeedbackRequest) : String :=
  (r.axon.map (fun a => a.hotkey.getD (""))).getD ("")

/-- Whether a wire response carries a truthy miner hotkey — the condition
under which `map_miner_response_to_model` succeeds. -/
def hasMinerHotkey (r : FeedbackRequest) : Bool :=
  match r.axon with
  | none => false
  | some a => !pyFalsyStr a.hotkey

/-- Specification-side quantity: the completion set described by a list of
wire responses — what the store should contain after an overwrite with
them. -/
def mappedCompletions (miner_responses : List FeedbackRequest) : List StoredCompletion :=
  miner_responses.flatMap (fun r =>
    r.completion_responses.map (fun c =>
      ⟨hotkeyStr r, c.completion_id, c.model, c.completion, c.rank_id, c.score⟩))

/-- Well-formedness of the id counter: every existing row id and every
foreign key lies below `next_id`, so freshly generated ids never collide. -/
def FreshIds (db : LegacyDB) : Prop :=
  (∀ m ∈ db.miner_responses, m.id < db.next_id) ∧
  (∀ c ∈ db.completion_rows, c.feedback_request_id < db.next_id)

/-! Concrete inputs used by counterexamples and witnesses. -/

/-- A concrete validator task synapse: two models in the ground truth, no
completion responses, no miner identity fields. -/
def vt0 : TaskSynapseObject :=
  { task_id := "task-1"
    previous_task_id := none
    prompt := "write fibonacci"
    task_type := "CODE_GENERATION"
    expire_at := "2099-01-01T00:00:00Z"
    completion_responses := []
    ground_truth := [("model-a", 1), ("model-b", 2)]
    miner_hotkey := none
    miner_coldkey := none
    dojo_task_id := none }

/-- A concrete miner response synapse with all identity fields present. -/
def mr_valid : TaskSynapseObject :=
  { vt0 with
      miner_hotkey := some ("hotkey-1")
      miner_coldkey := some ("coldkey-1")
      dojo_task_id := some ("dojo-1") }

/-- A concrete miner response synapse lacking `miner_hotkey` (the spec's S3
scenario). -/
def mr_invalid : TaskSynapseObject :=
  { vt0 with
      miner_coldkey := some ("coldkey-2")
      dojo_task_id := some ("dojo-2") }

/-- A concrete worker task result reporting `MULTI_SCORE` values for an
obfuscated id covered by the de-obfuscation map and one that is not (the
spec's S6 scenario). -/
def tr_s6 : TaskResult :=
  { id := "result-1"
    status := "COMPLETED"
    worker_id := "worker-1"
    task_id := "task-1"
    result_data := [⟨.MULTI_SCORE, [("obf1", 3), ("obf2", 5)]⟩] }

/-- A concrete worker task result reporting `RANKING_CRITERIA` ranks. -/
def tr_rank : TaskResult :=
  { tr_s6 with result_data := [⟨.RANKING_CRITERIA, [("obf1", 1), ("obf2", 2)]⟩] }

/-- An empty miner-simulator state. -/
def st0 : MinerSimState := ⟨[], []⟩

/-- A concrete inbound `FeedbackRequest` with no dendrite (rejected by the
handler's validation) but a non-empty ground truth. -/
def fr_bad : FeedbackRequest :=
  { request_id := "req-1"
    prompt := "write fibonacci"
    task_type := "CODE_GENERATION"
    criteria_types := []
    completion_responses := []
    dojo_task_id := none
    expire_at := "2099-01-01T00:00:00Z"
    ground_truth := [("model-a", 1)]
    dendrite := none
    axon := none }

/-- A concrete completion response carrying a score. -/
def cr_score (s : ℚ) : CompletionResponse :=
  { completion_id := "A"
    model := "model-a"
    completion := "code"
    criteria_types := []
    rank_id := none
    score := some s }

/-- A concrete inbound `FeedbackRequest` passing the handler's validation,
still with a non-empty ground truth. -/
def fr_good : FeedbackRequest :=
  { fr_bad with
      dendrite := some ⟨some ("validator-hotkey")⟩
      completion_responses := [cr_score 1] }

/-- A concrete wire miner response for request `req-1` whose single
completion `A` carries the given score (the spec's S4 scenario). -/
def fr_m1 (s : ℚ) : FeedbackRequest :=
  { fr_bad with
      axon := some ⟨some ("m1-hotkey")⟩
      completion_responses := [cr_score s] }

/-- An empty legacy store. -/
def legacy_db0 : LegacyDB := ⟨[], [], 0⟩

/-- Concrete unprocessed task rows inside the expiry window used by the
`get_expired_tasks` witness. -/
def vtask_a : ValidatorTask := ⟨"a", 100, 50, false⟩

/-- Second concrete unprocessed task row, created earlier than `vtask_a`. -/
def vtask_b : ValidatorTask := ⟨"b", 90, 60, false⟩

/-! Dictionary lemmas. -/

theorem dictGet_ddAdd (d : List (String × ℚ)) (k : String) (v : ℚ) (m : String) :
    dictGet (ddAdd d k v) m =
      if m = k then some ((dictGet d m).getD 0 + v) else dictGet d m := by
  induction d with
  | nil =>
    simp only [ddAdd, dictGet]
    by_cases h : m = k
    · subst h; simp
    · rw [if_neg (fun hk => h hk.symm), if_neg h]
  | cons kv rest ih =>
    simp only [ddAdd]
    by_cases hk : kv.1 = k
    · by_cases hm : m = k
      · subst hm; subst hk
        simp [dictGet]
      · rw [if_pos hk]
        have hkm : ¬ kv.1 = m := by rw [hk]; exact fun e => hm e.symm
        simp only [dictGet, if_neg hkm, if_neg hm]
    · rw [if_neg hk]
      by_cases hm : kv.1 = m
      · simp only [dictGet, if_pos hm]
        rw [if_neg (fun e => hk (by rw [hm, e]))]
      · simp only [dictGet, if_neg hm, ih]

theorem sumFor_cons (M : List (String × String)) (kv : String × ℚ)
    (rest : List (String × ℚ)) (m : String) :
    sumFor M (kv :: rest) m =
      (if deobf M kv.1 = m then kv.2 else 0) + sumFor M rest m := by
  simp only [sumFor, List.filter_cons]
  split <;> simp_all

theorem dictGet_addAll_some (M : List (String × String)) (kvs : List (String × ℚ)) :
    ∀ (d : List (String × ℚ)) (m : String),
      ((dictGet d m).isSome = true ∨ ∃ kv ∈ kvs, deobf M kv.1 = m) →
      dictGet (addAll d M kvs) m = some ((dictGet d m).getD 0 + sumFor M kvs m) := by
  induction kvs with
  | nil =>
    intro d m h
    rcases h with h | h
    · rcases Option.isSome_iff_exists.mp h with ⟨v, hv⟩
      simp [addAll, sumFor, hv]
    · simp at h
  | cons kv rest ih =>
    intro d m h
    have hstep : addAll d M (kv :: rest) = addAll (ddAdd d (deobf M kv.1) kv.2) M rest := rfl
    rw [hstep, sumFor_cons]
    by_cases hm : deobf M kv.1 = m
    · have hdd : dictGet (ddAdd d (deobf M kv.1) kv.2) m =
          some ((dictGet d m).getD 0 + kv.2) := by
        rw [dictGet_ddAdd, if_pos hm.symm]
      rw [ih _ m (Or.inl (by rw [hdd]; rfl)), hdd, if_pos hm]
      simp [add_assoc]
    · have hdd : dictGet (ddAdd d (deobf M kv.1) kv.2) m = dictGet d m := by
        rw [dictGet_ddAdd, if_neg (fun e => hm e.symm)]
      have h' : (dictGet (ddAdd d (deobf M kv.1) kv.2) m).isSome = true ∨
          ∃ kv' ∈ rest, deobf M kv'.1 = m := by
        rcases h with h | h
        · exact Or.inl (by rw [hdd]; exact h)
        · rcases h with ⟨kv', hkv', he⟩
          rcases List.mem_cons.mp hkv' with rfl | hkv'
          · exact absurd he hm
          · exact Or.inr ⟨kv', hkv', he⟩
      rw [ih _ m h', hdd, if_neg hm, zero_add]

theorem dictGet_addAll_none (M : List (String × String)) (kvs : List (String × ℚ)) :
    ∀ (d : List (String × ℚ)) (m : String),
      dictGet d m = none → (∀ kv ∈ kvs, deobf M kv.1 ≠ m) →
      dictGet (addAll d M kvs) m = none := by
  induction kvs with
  | nil => intro d m hd _; simpa [addAll] using hd
  | cons kv rest ih =>
    intro d m hd hall
    have hstep : addAll d M (kv :: rest) = addAll (ddAdd d (deobf M kv.1) kv.2) M rest := rfl
    rw [hstep]
    have hne : deobf M kv.1 ≠ m := hall kv (List.mem_cons_self kv rest)
    have hdd : dictGet (ddAdd d (deobf M kv.1) kv.2) m = none := by
      rw [dictGet_ddAdd, if_neg (fun e => hne e.symm)]; exact hd
    exact ih _ m hdd (fun kv' hkv' => hall kv' (List.mem_cons_of_mem kv hkv'))

theorem addAll_append (d : List (String × ℚ)) (M : List (String × String))
    (xs ys : List (String × ℚ)) :
    addAll (addAll d M xs) M ys = addAll d M (xs ++ ys) :=
  (List.foldl_append _ _ _ _).symm

theorem dictGet_map_div (c : ℚ) (d : List (String × ℚ)) (m : String) :
    dictGet (d.map (fun kv => (kv.1, kv.2 / c))) m = (dictGet d m).map (fun x => x / c) := by
  induction d with
  | nil => simp [dictGet]
  | cons kv rest ih =>
    simp only [List.map_cons, dictGet]
    split <;> simp_all

/-! Structural characterization of `_calculate_averages`. -/

theorem foldl_stepResultData (M : List (String × String)) (rds : List Result)
    (st : AvgState) :
    rds.foldl (stepResultData M) st =
      { model_id_to_avg_rank := addAll st.model_id_to_avg_rank M
          ((rds.filter (fun rd => rd.type = .RANKING_CRITERIA)).flatMap (fun rd => rd.value))
        model_id_to_avg_score := addAll st.model_id_to_avg_score M
          ((rds.filter (fun rd => rd.type = .MULTI_SCORE)).flatMap (fun rd => rd.value))
        num_ranks_by_workers := st.num_ranks_by_workers +
          (rds.filter (fun rd => rd.type = .RANKING_CRITERIA)).length
        num_scores_by_workers := st.num_scores_by_workers +
          (rds.filter (fun rd => rd.type = .MULTI_SCORE)).length } := by
  induction rds generalizing st with
  | nil => simp [addAll]
  | cons rd rest ih =>
    obtain ⟨ty, val⟩ := rd
    cases ty <;>
      simp [stepResultData, ih, List.filter_cons, ← addAll_append, addAll,
        Nat.add_assoc, Nat.add_comm 1]

theorem accumulate_foldl (M : List (String × String)) (rs : List TaskResult)
    (st : AvgState) :
    rs.foldl (fun st result => result.result_data.foldl (stepResultData M) st) st =
      { model_id_to_avg_rank := addAll st.model_id_to_avg_rank M (entriesOfType .RANKING_CRITERIA rs)
        model_id_to_avg_score := addAll st.model_id_to_avg_score M (entriesOfType .MULTI_SCORE rs)
        num_ranks_by_workers := st.num_ranks_by_workers + countOfType .RANKING_CRITERIA rs
        num_scores_by_workers := st.num_scores_by_workers + countOfType .MULTI_SCORE rs } := by
  induction rs generalizing st with
  | nil => simp [entriesOfType, countOfType, addAll]
  | cons r rest ih =>
    simp only [List.foldl_cons]
    rw [foldl_stepResultData, ih]
    simp [entriesOfType, countOfType, ← addAll_append, Nat.add_assoc]

theorem accumulate_eq (rs : List TaskResult) (M : List (String × String)) :
    DojoTaskTracker.accumulate rs M =
      { model_id_to_avg_rank := addAll [] M (entriesOfType .RANKING_CRITERIA rs)
        model_id_to_avg_score := addAll [] M (entriesOfType .MULTI_SCORE rs)
        num_ranks_by_workers := countOfType .RANKING_CRITERIA rs
        num_scores_by_workers := countOfType .MULTI_SCORE rs } := by
  unfold DojoTaskTracker.accumulate
  rw [accumulate_foldl]
  simp

theorem entries_ne_nil_count_pos (ty : CriteriaTypeEnum) (rs : List TaskResult)
    (h : entriesOfType ty rs ≠ []) : 1 ≤ countOfType ty rs := by
  induction rs with
  | nil => simp [entriesOfType] at h
  | cons r rest ih =>
    have hsplit : entriesOfType ty (r :: rest) =
        ((r.result_data.filter (fun rd => rd.type = ty)).flatMap (fun rd => rd.value)) ++
          entriesOfType ty rest := by
      simp [entriesOfType]
    have hcount : countOfType ty (r :: rest) =
        (r.result_data.filter (fun rd => rd.type = ty)).length + countOfType ty rest := by
      simp [countOfType]
    rw [hcount]
    by_cases hi : (r.result_data.filter (fun rd => rd.type = ty)) = []
    · rw [hsplit, hi] at h
      simp only [List.flatMap_nil, List.nil_append] at h
      have := ih h
      omega
    · have : 1 ≤ (r.result_data.filter (fun rd => rd.type = ty)).length := by
        rcases List.exists_mem_of_ne_nil _ hi with ⟨x, hx⟩
        exact List.length_pos.mpr hi
      omega

/-- C2: For every list of task results and every de-obfuscation map,
`_calculate_averages` returns, per real model id, the sum of reported ranks
divided by the number of worker result entries reporting
`RANKING_CRITERIA`, and the sum of reported scores divided by the number of
worker result entries reporting `MULTI_SCORE`.  The divisor
(`countOfType`) depends only on the criteria type, not on the model, so it
is shared across all models. -/
theorem C2_calculate_averages_formula (rs : List TaskResult)
    (M : List (String × String)) (m : String) :
    dictGet (DojoTaskTracker._calculate_averages rs M).1 m =
      (if ∃ kv ∈ entriesOfType .RANKING_CRITERIA rs, deobf M kv.1 = m then
        some (sumFor M (entriesOfType .RANKING_CRITERIA rs) m /
          (countOfType .RANKING_CRITERIA rs : ℚ))
      else none) ∧
    dictGet (DojoTaskTracker._calculate_averages rs M).2 m =
      (if ∃ kv ∈ entriesOfType .MULTI_SCORE rs, deobf M kv.1 = m then
        some (sumFor M (entriesOfType .MULTI_SCORE rs) m /
          (countOfType .MULTI_SCORE rs : ℚ))
      else none) := by
  unfold DojoTaskTracker._calculate_averages
  rw [accumulate_eq]
  dsimp only
  constructor
  · rw [dictGet_map_div]
    by_cases h : ∃ kv ∈ entriesOfType .RANKING_CRITERIA rs, deobf M kv.1 = m
    · rw [if_pos h, dictGet_addAll_some M _ [] m (Or.inr h)]
      simp [dictGet]
    · rw [if_neg h, dictGet_addAll_none M _ [] m rfl (by push_neg at h; exact h)]
      rfl
  · rw [dictGet_map_div]
    by_cases h : ∃ kv ∈ entriesOfType .MULTI_SCORE rs, deobf M kv.1 = m
    · rw [if_pos h, dictGet_addAll_some M _ [] m (Or.inr h)]
      simp [dictGet]
    · rw [if_neg h, dictGet_addAll_none M _ [] m rfl (by push_neg at h; exact h)]
      rfl

/-- C4: `_calculate_averages` keys each aggregate under
`obfuscated_to_real_model_id.get(model_id, model_id)`: the output maps have
a key `m` exactly when some reported entry de-obfuscates to `m`, where a
model id absent from the map falls through verbatim and a present one is
replaced by its real id. -/
theorem C4_deobfuscation_fallback (rs : List TaskResult)
    (M : List (String × String)) :
    (∀ m, (dictGet (DojoTaskTracker._calculate_averages rs M).1 m).isSome = true ↔
      m ∈ (entriesOfType .RANKING_CRITERIA rs).map (fun kv => deobf M kv.1)) ∧
    (∀ m, (dictGet (DojoTaskTracker._calculate_averages rs M).2 m).isSome = true ↔
      m ∈ (entriesOfType .MULTI_SCORE rs).map (fun kv => deobf M kv.1)) ∧
    (∀ model_id, dictGet M model_id = none → deobf M model_id = model_id) ∧
    (∀ model_id real_id, dictGet M model_id = some real_id →
      deobf M model_id = real_id) := by
  refine ⟨?_, ?_, ?_, ?_⟩
  · intro m
    unfold DojoTaskTracker._calculate_averages
    rw [accumulate_eq]
    dsimp only
    rw [dictGet_map_div]
    by_cases h : ∃ kv ∈ entriesOfType .RANKING_CRITERIA rs, deobf M kv.1 = m
    · rw [dictGet_addAll_some M _ [] m (Or.inr h)]
      simpa [List.mem_map] using h
    · rw [dictGet_addAll_none M _ [] m rfl (by push_neg at h; exact h)]
      simpa [List.mem_map] using h
  · intro m
    unfold DojoTaskTracker._calculate_averages
    rw [accumulate_eq]
    dsimp only
    rw [dictGet_map_div]
    by_cases h : ∃ kv ∈ entriesOfType .MULTI_SCORE rs, deobf M kv.1 = m
    · rw [dictGet_addAll_some M _ [] m (Or.inr h)]
      simpa [List.mem_map] using h
    · rw [dictGet_addAll_none M _ [] m rfl (by push_neg at h; exact h)]
      simpa [List.mem_map] using h
  · intro model_id h
    simp [deobf, h]
  · intro model_id real_id h
    simp [deobf, h]

/-- C4 witness: in the spec's S6 instance, `obf2` is absent from the map
`{obf1 -> real1}` and keys the output verbatim, while `obf1` is mapped to
`real1`. -/
theorem C4_deobfuscation_fallback_witness :
    ((dictGet (DojoTaskTracker._calculate_averages [tr_s6] [("obf1", "real1")]).2 ("obf2")).isSome = true) ∧
    deobf [("obf1", "real1")] "obf2" = "obf2" ∧
    deobf [("obf1", "real1")] "obf1" = "real1" :=
  ⟨((C4_deobfuscation_fallback [tr_s6] [("obf1", "real1")]).2.1 ("obf2")).mpr (by decide),
   (C4_deobfuscation_fallback [tr_s6] [("obf1", "real1")]).2.2.1 ("obf2") (by decide),
   (C4_deobfuscation_fallback [tr_s6] [("obf1", "real1")]).2.2.2 ("obf1") ("real1") (by decide)⟩

/-- C10: the final divisions of `_calculate_averages` are well-defined:
whenever the accumulated rank (resp. score) map is non-empty, the
corresponding worker-entry counter is at least `1`, so no division by zero
can occur. -/
theorem C10_no_division_by_zero (rs : List TaskResult)
    (M : List (String × String)) :
    ((DojoTaskTracker.accumulate rs M).model_id_to_avg_rank ≠ [] →
      1 ≤ (DojoTaskTracker.accumulate rs M).num_ranks_by_workers) ∧
    ((DojoTaskTracker.accumulate rs M).model_id_to_avg_score ≠ [] →
      1 ≤ (DojoTaskTracker.accumulate rs M).num_scores_by_workers) := by
  rw [accumulate_eq]
  constructor <;> intro h
  · apply entries_ne_nil_count_pos
    intro he
    rw [he] at h
    exact h rfl
  · apply entries_ne_nil_count_pos
    intro he
    rw [he] at h
    exact h rfl

/-- C10 witness: a single worker reporting ranks makes the rank map
non-empty and the rank counter positive. -/
theorem C10_no_division_by_zero_witness :
    (DojoTaskTracker.accumulate [tr_rank] []).model_id_to_avg_rank ≠ [] ∧
    1 ≤ (DojoTaskTracker.accumulate [tr_rank] []).num_ranks_by_workers :=
  ⟨by decide, (C10_no_division_by_zero [tr_rank] []).1 (by decide)⟩

theorem mem_dictSet {α : Type} (d : List (String × α)) (k : String) (v : α)
    (kv : String × α) (h : kv ∈ dictSet d k v) : kv ∈ d ∨ kv = (k, v) := by
  induction d with
  | nil =>
    simp only [dictSet, List.mem_singleton] at h
    exact Or.inr h
  | cons hd rest ih =>
    simp only [dictSet] at h
    by_cases hk : hd.1 = k
    · rw [if_pos hk] at h
      rcases List.mem_cons.mp h with h' | h'
      · exact Or.inr h'
      · exact Or.inl (List.mem_cons_of_mem _ h')
    · rw [if_neg hk] at h
      rcases List.mem_cons.mp h with h' | h'
      · exact Or.inl (h' ▸ List.mem_cons_self _ _)
      · rcases ih h' with h'' | h''
        · exact Or.inl (List.mem_cons_of_mem _ h'')
        · exact Or.inr h''

theorem dictGet_mem {α : Type} (d : List (String × α)) (m : String) (v : α)
    (h : dictGet d m = some v) : (m, v) ∈ d := by
  induction d with
  | nil => simp [dictGet] at h
  | cons kv rest ih =>
    simp only [dictGet] at h
    by_cases hk : kv.1 = m
    · rw [if_pos hk] at h
      have hv : kv.2 = v := by injection h
      rw [← hk, ← hv, Prod.mk.eta]
      exact List.mem_cons_self _ _
    · rw [if_neg hk] at h
      exact List.mem_cons_of_mem _ (ih h)

theorem foldl_dictSet_id (rows : List GroundTruthCreateInput) :
    ∀ d : List (String × String), (∀ kv ∈ d, kv.2 = kv.1) →
    (∀ gt ∈ rows, gt.obfuscated_model_id = gt.real_model_id) →
    ∀ kv ∈ rows.foldl
      (fun d gt => dictSet d gt.obfuscated_model_id gt.real_model_id) d,
      kv.2 = kv.1 := by
  induction rows with
  | nil => intro d hd _ kv hkv; exact hd kv hkv
  | cons gt rest ih =>
    intro d hd hrows kv hkv
    refine ih _ ?_ (fun g hg => hrows g (List.mem_cons_of_mem _ hg)) kv hkv
    intro kv' hkv'
    rcases mem_dictSet _ _ _ _ hkv' with h' | h'
    · exact hd kv' h'
    · rw [h']
      exact (hrows gt (List.mem_cons_self _ _)).symm

theorem deobf_id_of_id_dict (Mi : List (String × String))
    (h : ∀ kv ∈ Mi, kv.2 = kv.1) (model_id : String) : deobf Mi model_id = model_id := by
  unfold deobf
  cases hg : dictGet Mi model_id with
  | none => rfl
  | some v =>
    have hv := h _ (dictGet_mem _ _ _ hg)
    simpa using hv

theorem addAll_congr (M M' : List (String × String))
    (h : ∀ model_id, deobf M model_id = deobf M' model_id) :
    ∀ (kvs : List (String × ℚ)) (d : List (String × ℚ)),
      addAll d M kvs = addAll d M' kvs := by
  intro kvs
  induction kvs with
  | nil => intro d; rfl
  | cons kv rest ih =>
    intro d
    show addAll (ddAdd d (deobf M kv.1) kv.2) M rest =
      addAll (ddAdd d (deobf M' kv.1) kv.2) M' rest
    rw [h kv.1]
    exact ih _

theorem stepResultData_congr (M M' : List (String × String))
    (h : ∀ model_id, deobf M model_id = deobf M' model_id) :
    stepResultData M = stepResultData M' := by
  funext st rd
  obtain ⟨ty, val⟩ := rd
  cases ty <;> simp [stepResultData, addAll_congr M M' h]

theorem calculate_averages_congr (rs : List TaskResult)
    (M M' : List (String × String))
    (h : ∀ model_id, deobf M model_id = deobf M' model_id) :
    DojoTaskTracker._calculate_averages rs M =
      DojoTaskTracker._calculate_averages rs M' := by
  unfold DojoTaskTracker._calculate_averages DojoTaskTracker.accumulate
  rw [stepResultData_congr M M' h]

theorem except_bind_ok {ε α β : Type} (x : Except ε α) (g : α → Except ε β) (b : β)
    (h : (x >>= g) = .ok b) : ∃ a, x = .ok a ∧ g a = .ok b := by
  cases x with
  | error e => simp [Bind.bind, Except.bind] at h
  | ok a => exact ⟨a, rfl, by simpa [Bind.bind, Except.bind] using h⟩

/-- C9: the mapper creates every `GroundTruth` row with
`obfuscated_model_id = real_model_id` (both the synapse's model id);
consequently `ORM.get_real_model_ids` over rows saved through this mapper
returns an identity map, and the de-obfuscation step of
`_calculate_averages` is a no-op (aggregating with that map equals
aggregating with the empty map). -/
theorem C9_ground_truth_identity_map (synapse : TaskSynapseObject)
    (out : ValidatorTaskCreateInput) (rs : List TaskResult)
    (h : map_task_synapse_object_to_validator_task synapse = .ok out) :
    (∀ gt ∈ out.ground_truth, gt.obfuscated_model_id = gt.real_model_id) ∧
    (∀ kv ∈ ORM.get_real_model_ids out.ground_truth synapse.task_id, kv.2 = kv.1) ∧
    (∀ model_id,
      deobf (ORM.get_real_model_ids out.ground_truth synapse.task_id) model_id = model_id) ∧
    DojoTaskTracker._calculate_averages rs
        (ORM.get_real_model_ids out.ground_truth synapse.task_id) =
      DojoTaskTracker._calculate_averages rs [] := by
  have hrows : ∀ gt ∈ out.ground_truth, gt.obfuscated_model_id = gt.real_model_id := by
    unfold map_task_synapse_object_to_validator_task at h
    obtain ⟨comps, _, hrest⟩ := except_bind_ok _ _ _ h
    simp only [Pure.pure, Except.pure, Except.ok.injEq] at hrest
    rw [← hrest]
    intro gt hgt
    by_cases hne : synapse.ground_truth ≠ []
    · rw [if_pos hne] at hgt
      rcases List.mem_map.mp hgt with ⟨kv, _, hkv⟩
      rw [← hkv]
    · rw [if_neg hne] at hgt
      simp at hgt
  have hmap : ∀ kv ∈ ORM.get_real_model_ids out.ground_truth synapse.task_id,
      kv.2 = kv.1 := by
    unfold ORM.get_real_model_ids
    exact foldl_dictSet_id _ [] (by simp)
      (fun g hg => hrows g (List.mem_filter.mp hg).1)
  have hdeobf : ∀ model_id,
      deobf (ORM.get_real_model_ids out.ground_truth synapse.task_id) model_id = model_id :=
    deobf_id_of_id_dict _ hmap
  refine ⟨hrows, hmap, hdeobf, ?_⟩
  exact calculate_averages_congr rs _ [] (fun model_id => by rw [hdeobf model_id]; rfl)

/-- C9 witness: a concrete synapse whose ground truth names two models maps
to identity ground-truth rows, an identity de-obfuscation table and a
no-op de-obfuscation step. -/
theorem C9_ground_truth_identity_map_witness :
    (map_task_synapse_object_to_validator_task vt0).isOk = true ∧
    ∀ model_id,
      deobf
        (ORM.get_real_model_ids
          ((map_task_synapse_object_to_validator_task vt0).toOption.getD
            ⟨"", none, "", "", "", false, [], []⟩).ground_truth
          vt0.task_id) model_id = model_id := by
  refine ⟨by decide, ?_⟩
  exact (C9_ground_truth_identity_map vt0 _ [] rfl).2.2.1

/-- C8: every score generated by the simulated miner's `_generate_scores`
lies in the inclusive range `[1, 100]`, for every ground-truth map and
every stream of uniform draws — in particular for every ground-truth rank
in `[1, 10]`. -/
theorem C8_simulator_score_bounds (ground_truth : List (String × ℤ)) (u : ℕ → ℚ) :
    ∀ kv ∈ MinerSim._generate_scores u ground_truth, 1 ≤ kv.2 ∧ kv.2 ≤ 100 := by
  induction ground_truth generalizing u with
  | nil => intro kv hkv; simp [MinerSim._generate_scores] at hkv
  | cons g rest ih =>
    intro kv hkv
    simp only [MinerSim._generate_scores, List.mem_cons] at hkv
    rcases hkv with rfl | hkv
    · refine ⟨le_max_left _ _, max_le (by norm_num) (min_le_left _ _)⟩
    · exact ih _ kv hkv

/-- C8 witness: ground-truth rank `3` with a zero draw yields score `34`,
inside `[1, 100]`. -/
theorem C8_simulator_score_bounds_witness :
    (("model-a", (34:ℤ)) ∈ MinerSim._generate_scores (fun _ => 0) [("model-a", 3)]) ∧
    (1 ≤ (34:ℤ) ∧ (34:ℤ) ≤ 100) := by
  have hm : ("model-a", (34:ℤ)) ∈ MinerSim._generate_scores (fun _ => 0) [("model-a", 3)] := by
    with_unfolding_all decide
  exact ⟨hm, C8_simulator_score_bounds [("model-a", 3)] (fun _ => 0) _ hm⟩

/-- C3 counterexample: an inbound `FeedbackRequest` rejected for a missing
dendrite hotkey is returned unmodified, so its non-empty `ground_truth` is
echoed back — the returned synapse does not have an empty ground-truth
map. -/
theorem C3_scrub_counterexample :
    (MinerSim.forward_feedback_request st0 fr_bad).1.ground_truth ≠ [] := by decide

/-- C3 (amended): for every inbound `FeedbackRequest` that passes the
handler's validation (dendrite hotkey present and non-empty
`completion_responses`), the returned synapse has an empty `ground_truth`
map; inputs that fail validation are returned unmodified. -/
theorem C3_ground_truth_scrubbed (st : MinerSimState) (synapse : FeedbackRequest)
    (h1 : dendriteHotkeyFalsy synapse = false)
    (h2 : synapse.completion_responses ≠ []) :
    (MinerSim.forward_feedback_request st synapse).1.ground_truth = [] := by
  unfold MinerSim.forward_feedback_request
  rw [if_neg (by simp [h1]), if_neg h2]

/-- C3 witness: a valid inbound request with non-empty ground truth comes
back scrubbed. -/
theorem C3_ground_truth_scrubbed_witness :
    dendriteHotkeyFalsy fr_good = false ∧ fr_good.completion_responses ≠ [] ∧
    (MinerSim.forward_feedback_request st0 fr_good).1.ground_truth = [] :=
  ⟨by decide, by decide, C3_ground_truth_scrubbed st0 fr_good (by decide) (by decide)⟩

/-- C1 (divergence witness): because the new-schema miner-response mapper
raises `ValueError` while `ORM.save_task` only catches
`InvalidMinerResponse`, one miner response lacking its hotkey aborts the
whole transaction: `save_task` returns `None` and neither the validator
task nor the valid miner response is persisted — while the same call
without the invalid response succeeds. -/
theorem C1_save_task_aborts_on_invalid_miner :
    ORM.save_task vt0 [mr_valid, mr_invalid] [("model-a", 1), ("model-b", 2)] = none ∧
    ORM.save_task vt0 [mr_valid] [("model-a", 1), ("model-b", 2)] ≠ none := by
  exact ⟨rfl, by decide⟩

/-- C6: `get_expired_tasks` fails with `ExpiredFromMoreThanExpireTo`
whenever the (explicit or defaulted) `expire_from` exceeds `expire_to`,
and — when that first check passes — fails with `NoNewExpiredTasksYet`
whenever the count of unprocessed tasks in the window is zero; in both
cases the error is returned instead of any batch. -/
theorem C6_expired_window_failures (db : List ValidatorTask) (now task_deadline : ℤ)
    (batch_size : ℕ) (expire_from expire_to : Option ℤ) :
    (expire_to.getD (now - task_deadline) <
        expire_from.getD (now - task_deadline - 6 * 3600) →
      ORM.get_expired_tasks db now task_deadline batch_size expire_from expire_to =
        .error .expiredFromMoreThanExpireTo) ∧
    (expire_from.getD (now - task_deadline - 6 * 3600) ≤
        expire_to.getD (now - task_deadline) →
      (db.filter (expiredWhere (expire_from.getD (now - task_deadline - 6 * 3600))
          (expire_to.getD (now - task_deadline)))).length = 0 →
      ORM.get_expired_tasks db now task_deadline batch_size expire_from expire_to =
        .error .noNewExpiredTasksYet) := by
  unfold ORM.get_expired_tasks
  constructor
  · intro h
    rw [if_pos h]
  · intro h h0
    rw [if_neg (not_lt.mpr h), if_pos h0]

/-- C6 witness: `expire_from = now` after `expire_to = now - 1` fails with
`ExpiredFromMoreThanExpireTo` (the spec's S2), and a well-ordered window
with no unprocessed tasks fails with `NoNewExpiredTasksYet`. -/
theorem C6_expired_window_failures_witness :
    ORM.get_expired_tasks [] 0 0 1 (some 1) (some 0) = .error .expiredFromMoreThanExpireTo ∧
    ORM.get_expired_tasks [] 0 0 1 (some 0) (some 1) = .error .noNewExpiredTasksYet :=
  ⟨(C6_expired_window_failures [] 0 0 1 (some 1) (some 0)).1 (by decide),
   (C6_expired_window_failures [] 0 0 1 (some 0) (some 1)).2 (by decide) (by decide)⟩

theorem mem_insertDesc (t : ValidatorTask) (l : List ValidatorTask) (x : ValidatorTask) :
    x ∈ insertDesc t l ↔ x = t ∨ x ∈ l := by
  induction l with
  | nil => simp [insertDesc]
  | cons u rest ih =>
    simp only [insertDesc]
    split
    · simp [List.mem_cons]
    · simp only [List.mem_cons, ih]
      tauto

theorem pairwise_insertDesc (t : ValidatorTask) (l : List ValidatorTask)
    (h : l.Pairwise (fun a b => b.created_at ≤ a.created_at)) :
    (insertDesc t l).Pairwise (fun a b => b.created_at ≤ a.created_at) := by
  induction l with
  | nil => simp [insertDesc]
  | cons u rest ih =>
    rcases List.pairwise_cons.mp h with ⟨hu, hrest⟩
    simp only [insertDesc]
    split
    case isTrue hle =>
      refine List.pairwise_cons.mpr ⟨?_, h⟩
      intro x hx
      rcases List.mem_cons.mp hx with rfl | hx
      · exact hle
      · exact le_trans (hu x hx) hle
    case isFalse hgt =>
      refine List.pairwise_cons.mpr ⟨?_, ih hrest⟩
      intro x hx
      rcases (mem_insertDesc t rest x).mp hx with rfl | hx
      · exact le_of_not_le hgt
      · exact hu x hx

theorem perm_insertDesc (t : ValidatorTask) (l : List ValidatorTask) :
    (insertDesc t l).Perm (t :: l) := by
  induction l with
  | nil => rfl
  | cons u rest ih =>
    simp only [insertDesc]
    split
    · rfl
    · exact ((ih.cons u).trans (List.Perm.swap t u rest))

theorem sortByCreatedAtDesc_pairwise (l : List ValidatorTask) :
    (sortByCreatedAtDesc l).Pairwise (fun a b => b.created_at ≤ a.created_at) := by
  induction l with
  | nil => simp [sortByCreatedAtDesc]
  | cons t rest ih => exact pairwise_insertDesc _ _ ih

theorem sortByCreatedAtDesc_perm (l : List ValidatorTask) :
    (sortByCreatedAtDesc l).Perm l := by
  induction l with
  | nil => rfl
  | cons t rest ih =>
    exact (perm_insertDesc t (sortByCreatedAtDesc rest)).trans (ih.cons t)

theorem pyRange_length (a b s : ℕ) : (pyRange a b s).length = (b - a + s - 1) / s := by
  simp [pyRange]

theorem pyRange_getElem (a b s i : ℕ) (h : i < (pyRange a b s).length) :
    (pyRange a b s)[i] = a + i * s := by
  simp [pyRange]

theorem chunks_flatten {α : Type} (L : List α) (bs cnt : ℕ) :
    ((List.range cnt).map (fun i => (L.drop (bs + i * bs)).take bs)).flatten =
      (L.drop bs).take (cnt * bs) := by
  induction cnt with
  | zero => simp
  | succ k ih =>
    rw [List.range_succ, List.map_append, List.flatten_append]
    simp only [List.map_cons, List.map_nil, List.flatten_cons, List.flatten_nil,
      List.append_nil]
    rw [ih, Nat.succ_mul, List.take_add, List.drop_drop]

theorem div_count_iff (bs n j : ℕ) (hbs : 0 < bs) :
    j < (n - bs + bs - 1) / bs ↔ bs + j * bs < n := by
  have hjb : (j + 1) * bs = j * bs + bs := by ring
  rw [Nat.lt_iff_add_one_le, Nat.le_div_iff_mul_le hbs, hjb]
  generalize j * bs = K
  omega

/-- C5: whenever `get_expired_tasks` succeeds, every yielded batch contains
only unprocessed tasks whose `expire_at` lies strictly between the
(explicit or defaulted) bounds, the concatenation of the batches is sorted
by `created_at` descending, and a batch's `has_more` flag is true exactly
when at least one more batch follows (so the last batch carries
`false`). -/
theorem C5_expired_batches (db : List ValidatorTask) (now task_deadline : ℤ)
    (batch_size : ℕ) (expire_from expire_to : Option ℤ)
    (batches : List (List ValidatorTask × Bool))
    (hbs : 0 < batch_size)
    (h : ORM.get_expired_tasks db now task_deadline batch_size expire_from expire_to =
      .ok batches) :
    (∀ b ∈ batches, ∀ t ∈ b.1,
      t.is_processed = false ∧
      expire_from.getD (now - task_deadline - 6 * 3600) < t.expire_at ∧
      t.expire_at < expire_to.getD (now - task_deadline)) ∧
    ((batches.map Prod.fst).flatten.Pairwise (fun a b => b.created_at ≤ a.created_at)) ∧
    (∀ i (hi : i < batches.length),
      (batches.get ⟨i, hi⟩).2 = true ↔ i + 1 < batches.length) := by
  unfold ORM.get_expired_tasks at h
  dsimp only at h
  set ef := expire_from.getD (now - task_deadline - 6 * 3600) with hef
  set et := expire_to.getD (now - task_deadline) with het
  split_ifs at h with h1 h2
  rw [Except.ok.injEq] at h
  subst h
  set flt := db.filter (expiredWhere ef et) with hflt
  set L := sortByCreatedAtDesc flt with hL
  set n := flt.length with hn
  have hfm : ∀ s k, findManyExpired db ef et s k = (L.drop s).take k := fun s k => rfl
  have hLperm : L.Perm flt := sortByCreatedAtDesc_perm flt
  have hsorted : L.Pairwise (fun a b => b.created_at ≤ a.created_at) :=
    sortByCreatedAtDesc_pairwise flt
  have hcnt : ∀ j, j < (n - batch_size + batch_size - 1) / batch_size ↔
      batch_size + j * batch_size < n := fun j => div_count_iff batch_size n j hbs
  refine ⟨?_, ?_, ?_⟩
  · intro b hb t ht
    have hsub : ∃ s, b.1 = (L.drop s).take batch_size := by
      rcases List.mem_cons.mp hb with rfl | hb'
      · exact ⟨0, hfm 0 batch_size⟩
      · rcases List.mem_map.mp hb' with ⟨skip, _, rfl⟩
        exact ⟨skip, hfm skip batch_size⟩
    obtain ⟨s, hs⟩ := hsub
    rw [hs] at ht
    have htL : t ∈ L :=
      ((List.take_sublist _ _).trans (List.drop_sublist _ _)).subset ht
    have hw : expiredWhere ef et t = true :=
      (List.mem_filter.mp (hLperm.mem_iff.mp htL)).2
    simp only [expiredWhere, Bool.and_eq_true, decide_eq_true_eq] at hw
    exact ⟨hw.2, hw.1.1, hw.1.2⟩
  · have hflat : ((((findManyExpired db ef et 0 batch_size,
          decide (batch_size < n)) ::
        (pyRange batch_size n batch_size).map (fun skip =>
          (findManyExpired db ef et skip batch_size,
           decide (skip + batch_size < n)))).map Prod.fst).flatten) =
        L.take (batch_size +
          ((n - batch_size + batch_size - 1) / batch_size) * batch_size) := by
      simp only [List.map_cons, List.map_map, List.flatten_cons]
      rw [hfm 0 batch_size]
      have hmap : ((pyRange batch_size n batch_size).map (Prod.fst ∘ fun skip =>
          (findManyExpired db ef et skip batch_size,
            decide (skip + batch_size < n)))) =
          (List.range ((n - batch_size + batch_size - 1) / batch_size)).map
            (fun i => (L.drop (batch_size + i * batch_size)).take batch_size) := by
        simp only [pyRange, List.map_map]
        refine List.map_congr_left ?_
        intro i _
        simp only [Function.comp]
        rw [hfm]
      rw [hmap, chunks_flatten, List.drop_zero, ← List.take_add]
    rw [hflat]
    exact List.Pairwise.sublist (List.take_sublist _ _) hsorted
  · intro i hi
    have hlenB : (((findManyExpired db ef et 0 batch_size,
        decide (batch_size < n)) ::
      (pyRange batch_size n batch_size).map (fun skip =>
        (findManyExpired db ef et skip batch_size,
         decide (skip + batch_size < n)))).length) =
        (n - batch_size + batch_size - 1) / batch_size + 1 := by
      simp [pyRange_length]
    cases i with
    | zero =>
      have h0 := hcnt 0
      simp only [Nat.zero_mul, Nat.add_zero] at h0
      simp only [List.get_eq_getElem, List.getElem_cons_zero, decide_eq_true_eq, hlenB]
      omega
    | succ j =>
      have hj1 := hcnt (j + 1)
      rw [Nat.succ_mul] at hj1
      simp only [List.get_eq_getElem, List.getElem_cons_succ, List.getElem_map,
        pyRange_getElem, decide_eq_true_eq, hlenB]
      generalize j * batch_size = K at hj1 ⊢
      omega

/-- C5 witness: two unprocessed tasks in the window with batch size `1`
yield two batches ordered by `created_at` descending, the first flagged
`has_more = true` and the last `has_more = false`. -/
theorem C5_expired_batches_witness :
    (ORM.get_expired_tasks [vtask_a, vtask_b] 1000 0 1 (some 0) (some 1000) =
      .ok [([vtask_a], true), ([vtask_b], false)]) ∧
    (∀ i (hi : i < ([([vtask_a], true), ([vtask_b], false)] :
        List (List ValidatorTask × Bool)).length),
      (([([vtask_a], true), ([vtask_b], false)] :
        List (List ValidatorTask × Bool)).get ⟨i, hi⟩).2 = true ↔
        i + 1 < ([([vtask_a], true), ([vtask_b], false)] :
          List (List ValidatorTask × Bool)).length) := by
  have h : ORM.get_expired_tasks [vtask_a, vtask_b] 1000 0 1 (some 0) (some 1000) =
      .ok [([vtask_a], true), ([vtask_b], false)] := rfl
  exact ⟨h, fun i hi =>
    (C5_expired_batches [vtask_a, vtask_b] 1000 0 1 (some 0) (some 1000) _
      (by decide) h).2.2 i hi⟩

theorem flatMap_congr_mem {α β : Type} (l : List α) (f g : α → List β)
    (h : ∀ a ∈ l, f a = g a) : l.flatMap f = l.flatMap g := by
  induction l with
  | nil => rfl
  | cons a rest ih =>
    simp only [List.flatMap_cons]
    rw [h a (List.mem_cons_self _ _),
      ih (fun a' ha' => h a' (List.mem_cons_of_mem _ ha'))]

theorem map_miner_response_ok (r : FeedbackRequest) (request_id : String) (i : ℕ)
    (h : hasMinerHotkey r = true) :
    map_miner_response_to_model r request_id i =
      .ok ⟨i, request_id, hotkeyStr r, r.dojo_task_id.getD ("")⟩ := by
  cases ha : r.axon with
  | none => simp [hasMinerHotkey, ha] at h
  | some a =>
    have hp : pyFalsyStr a.hotkey = false := by
      simpa [hasMinerHotkey, ha] using h
    simp [map_miner_response_to_model, ha, hp, hotkeyStr]

theorem storedCompletions_append_one (db : LegacyDB) (request_id : String)
    (r : FeedbackRequest) (hf : FreshIds db) :
    storedCompletions
      { miner_responses := db.miner_responses ++
          [⟨db.next_id, request_id, hotkeyStr r, r.dojo_task_id.getD ("")⟩]
        completion_rows := db.completion_rows ++
          r.completion_responses.map (fun c =>
            map_completion_response_to_model c db.next_id)
        next_id := db.next_id + 1 } request_id =
      storedCompletions db request_id ++
        r.completion_responses.map (fun c =>
          ⟨hotkeyStr r, c.completion_id, c.model, c.completion, c.rank_id, c.score⟩) := by
  unfold storedCompletions
  dsimp only
  rw [List.filter_append, List.flatMap_append]
  congr 1
  · refine flatMap_congr_mem _ _ _ ?_
    intro m hm
    have hmid : m.id < db.next_id := hf.1 m (List.mem_filter.mp hm).1
    rw [List.filter_append]
    have hnew : (r.completion_responses.map (fun c =>
        map_completion_response_to_model c db.next_id)).filter
          (fun c => decide (c.feedback_request_id = m.id)) = [] := by
      rw [List.filter_eq_nil_iff]
      intro c hc
      rcases List.mem_map.mp hc with ⟨c', _, rfl⟩
      simp only [map_completion_response_to_model, decide_eq_true_eq]
      omega
    rw [hnew, List.append_nil]
  · have hrow : (List.filter (fun m => decide (m.request_id = request_id))
        [(⟨db.next_id, request_id, hotkeyStr r, r.dojo_task_id.getD ("")⟩ : MinerResponseRow)]) =
        [⟨db.next_id, request_id, hotkeyStr r, r.dojo_task_id.getD ("")⟩] := by
      simp
    rw [hrow]
    simp only [List.flatMap_cons, List.flatMap_nil, List.append_nil]
    rw [List.filter_append]
    have hold : db.completion_rows.filter
        (fun c => decide (c.feedback_request_id = db.next_id)) = [] := by
      rw [List.filter_eq_nil_iff]
      intro c hc
      have := hf.2 c hc
      simp only [decide_eq_true_eq]
      omega
    have hnew : (r.completion_responses.map (fun c =>
        map_completion_response_to_model c db.next_id)).filter
          (fun c => decide (c.feedback_request_id = db.next_id)) =
        r.completion_responses.map (fun c =>
          map_completion_response_to_model c db.next_id) := by
      rw [List.filter_eq_self]
      intro c hc
      rcases List.mem_map.mp hc with ⟨c', _, rfl⟩
      simp [map_completion_response_to_model]
    rw [hold, hnew, List.nil_append, List.map_map]
    rfl

theorem create_miner_rows_spec (request_id : String) (rs : List FeedbackRequest) :
    ∀ db : LegacyDB, (∀ r ∈ rs, hasMinerHotkey r = true) → FreshIds db →
    ∃ db', create_miner_rows request_id db rs = .ok db' ∧
      FreshIds db' ∧
      storedCompletions db' request_id =
        storedCompletions db request_id ++ mappedCompletions rs := by
  induction rs with
  | nil =>
    intro db _ hf
    exact ⟨db, rfl, hf, by simp [mappedCompletions]⟩
  | cons r rest ih =>
    intro db hall hf
    have hr : hasMinerHotkey r = true := hall r (List.mem_cons_self _ _)
    have hstep : create_miner_rows request_id db (r :: rest) =
        create_miner_rows request_id
          { miner_responses := db.miner_responses ++
              [⟨db.next_id, request_id, hotkeyStr r, r.dojo_task_id.getD ("")⟩]
            completion_rows := db.completion_rows ++
              r.completion_responses.map (fun c =>
                map_completion_response_to_model c db.next_id)
            next_id := db.next_id + 1 } rest := by
      simp only [create_miner_rows]
      rw [map_miner_response_ok r request_id db.next_id hr]
    have hf1 : FreshIds
        { miner_responses := db.miner_responses ++
            [⟨db.next_id, request_id, hotkeyStr r, r.dojo_task_id.getD ("")⟩]
          completion_rows := db.completion_rows ++
            r.completion_responses.map (fun c =>
              map_completion_response_to_model c db.next_id)
          next_id := db.next_id + 1 } := by
      constructor
      · intro m hm
        rcases List.mem_append.mp hm with hm' | hm'
        · have := hf.1 m hm'
          dsimp only
          omega
        · rcases List.mem_singleton.mp hm' with rfl
          dsimp only
          omega
      · intro c hc
        rcases List.mem_append.mp hc with hc' | hc'
        · have := hf.2 c hc'
          dsimp only
          omega
        · rcases List.mem_map.mp hc' with ⟨c', _, rfl⟩
          simp only [map_completion_response_to_model]
          omega
    obtain ⟨db', hcr, hf', hst⟩ :=
      ih _ (fun r' hr' => hall r' (List.mem_cons_of_mem _ hr')) hf1
    refine ⟨db', by rw [hstep]; exact hcr, hf', ?_⟩
    rw [hst, storedCompletions_append_one db request_id r hf]
    simp [mappedCompletions, List.append_assoc]

theorem overwrite_spec (db : LegacyDB) (request_id : String)
    (rs : List FeedbackRequest) (hall : ∀ r ∈ rs, hasMinerHotkey r = true)
    (hf : FreshIds db) :
    ∃ db', DataManager.overwrite_miner_responses_by_request_id db request_id rs =
        (true, db') ∧
      FreshIds db' ∧ storedCompletions db' request_id = mappedCompletions rs := by
  have hfd : FreshIds
      { miner_responses := db.miner_responses.filter
          (fun m => !(decide (m.request_id = request_id)))
        completion_rows := db.completion_rows.filter
          (fun c => !(db.miner_responses.any (fun m =>
            decide (m.id = c.feedback_request_id) && decide (m.request_id = request_id))))
        next_id := db.next_id } := by
    constructor
    · intro m hm
      exact hf.1 m (List.mem_filter.mp hm).1
    · intro c hc
      exact hf.2 c (List.mem_filter.mp hc).1
  have hempty : storedCompletions
      { miner_responses := db.miner_responses.filter
          (fun m => !(decide (m.request_id = request_id)))
        completion_rows := db.completion_rows.filter
          (fun c => !(db.miner_responses.any (fun m =>
            decide (m.id = c.feedback_request_id) && decide (m.request_id = request_id))))
        next_id := db.next_id } request_id = [] := by
    unfold storedCompletions
    dsimp only
    rw [List.filter_filter]
    have : (db.miner_responses.filter (fun m =>
        decide (m.request_id = request_id) && !(decide (m.request_id = request_id)))) = [] := by
      rw [List.filter_eq_nil_iff]
      intro m _
      cases hdec : decide (m.request_id = request_id) <;> simp [hdec]
    rw [this]
    rfl
  obtain ⟨db', hcr, hf', hst⟩ := create_miner_rows_spec request_id rs _ hall hfd
  refine ⟨db', ?_, hf', ?_⟩
  · unfold DataManager.overwrite_miner_responses_by_request_id
    dsimp only
    rw [hcr]
  · rw [hst, hempty, List.nil_append]

/-- C7: updating miner completions for a request deletes all stored
completion rows of that request and recreates them from the supplied
responses inside one transaction, so the stored completion set after two
sequential updates equals exactly the set mapped from the last supplied
responses, with no duplicates and no trace of the first update. -/
theorem C7_update_miner_completions_replaces (db : LegacyDB) (request_id : String)
    (rs1 rs2 : List FeedbackRequest)
    (h1 : ∀ r ∈ rs1, hasMinerHotkey r = true)
    (h2 : ∀ r ∈ rs2, hasMinerHotkey r = true)
    (hf : FreshIds db) :
    (DataManager.overwrite_miner_responses_by_request_id db request_id rs1).1 = true ∧
    (DataManager.overwrite_miner_responses_by_request_id
      (DataManager.overwrite_miner_responses_by_request_id db request_id rs1).2
      request_id rs2).1 = true ∧
    storedCompletions
      (DataManager.overwrite_miner_responses_by_request_id
        (DataManager.overwrite_miner_responses_by_request_id db request_id rs1).2
        request_id rs2).2 request_id = mappedCompletions rs2 := by
  obtain ⟨db1, e1, hf1, _⟩ := overwrite_spec db request_id rs1 h1 hf
  obtain ⟨db2, e2, _, hst2⟩ := overwrite_spec db1 request_id rs2 h2 hf1
  rw [e1]
  dsimp only
  rw [e2]
  exact ⟨rfl, rfl, hst2⟩

/-- C7 witness: the spec's S4 scenario — updating request `req-1` with a
score of `50` and then `70` for the same miner leaves exactly the single
completion row with score `70`. -/
theorem C7_update_miner_completions_replaces_witness :
    (∀ r ∈ [fr_m1 50], hasMinerHotkey r = true) ∧
    (∀ r ∈ [fr_m1 70], hasMinerHotkey r = true) ∧
    FreshIds legacy_db0 ∧
    storedCompletions
      (DataManager.overwrite_miner_responses_by_request_id
        (DataManager.overwrite_miner_responses_by_request_id legacy_db0 ("req-1")
          [fr_m1 50]).2
        ("req-1") [fr_m1 70]).2 ("req-1") = mappedCompletions [fr_m1 70] := by
  have hfr : FreshIds legacy_db0 := by
    constructor <;> intro x hx <;> simp [legacy_db0] at hx
  refine ⟨by decide, by decide, hfr, ?_⟩
  exact (C7_update_miner_completions_replaces legacy_db0 ("req-1") [fr_m1 50] [fr_m1 70]
    (by decide) (by decide) hfr).2.2

end Dojo
